import Mathlib

/-!
A shallow embedding of the `cec` package (files `cec.go`, `callbacks.go`):
symbol tables, the name/address resolvers, the `Key` convenience operation
and the command-received callback, together with theorems about the claims
of the specification.

Conventions of the embedding:
* Go strings are Lean `String`s; character-level work happens on `List Char`.
* Go runtime panics (index/slice out of range) are modelled explicitly:
  a function that can panic returns an `Option`, with `none` for the panic.
* Go maps have an unspecified iteration order; a function that ranges over a
  map takes the iteration order as an explicit list parameter, constrained in
  theorems to be a permutation of the table's entries.  Map *reads* (which are
  deterministic in Go) are embedded as association-list lookups.
* `strings.ToLower` is embedded on the ASCII range (all table names are
  ASCII): uppercase A–Z maps to a–z, everything else is unchanged.
-/

namespace Cec

/-- The separator characters removed by `removeSeparators` (Go: `":-_ "`). -/
def separators : List Char := [':', '-', '_', ' ']

/-- ASCII lowercasing, as `strings.ToLower` acts on the ASCII range.
Written out on the uppercase letters so that every fact about it is a
finite case split. -/
def goToLowerChar (c : Char) : Char :=
  match c with
  | 'A' => 'a' | 'B' => 'b' | 'C' => 'c' | 'D' => 'd' | 'E' => 'e'
  | 'F' => 'f' | 'G' => 'g' | 'H' => 'h' | 'I' => 'i' | 'J' => 'j'
  | 'K' => 'k' | 'L' => 'l' | 'M' => 'm' | 'N' => 'n' | 'O' => 'o'
  | 'P' => 'p' | 'Q' => 'q' | 'R' => 'r' | 'S' => 's' | 'T' => 't'
  | 'U' => 'u' | 'V' => 'v' | 'W' => 'w' | 'X' => 'x' | 'Y' => 'y'
  | 'Z' => 'z'
  | c => c

/-- Lowercase a character list (Go: `strings.ToLower`). -/
def lowerL (l : List Char) : List Char := l.map goToLowerChar

/-- `removeSeparators` from `cec.go`: drop every character of `":-_ "`. -/
def removeSepsL (l : List Char) : List Char :=
  l.filter (fun c => !decide (c ∈ separators))

/-- String-level wrapper of `removeSepsL`. -/
def removeSeparators (s : String) : String := ⟨removeSepsL s.data⟩

/-- The normalisation `GetKeyCodeByName` applies to its input:
remove separators, then lowercase. -/
def normL (l : List Char) : List Char := lowerL (removeSepsL l)

/-- `logicalNames` from `cec.go`: the 16 positional logical-address names. -/
def logicalNames : List String :=
  ["TV", "Recording", "Recording2", "Tuner",
   "Playback", "Audio", "Tuner2", "Tuner3",
   "Playback2", "Recording3", "Tuner4", "Playback3",
   "Reserved", "Reserved2", "Free", "Broadcast"]

/-- `keyList` from `cec.go`, in source order.  In Go this is a map; the list
records its entries (iteration order for `range` loops is taken as a
parameter by the functions below).  Note the two entries named "Mute"
(0x43 and 0x65). -/
def keyList : List (Int × String) :=
  [(0x00, "Select"), (0x01, "Up"), (0x02, "Down"), (0x03, "Left"),
   (0x04, "Right"), (0x05, "RightUp"), (0x06, "RightDown"), (0x07, "LeftUp"),
   (0x08, "LeftDown"), (0x09, "RootMenu"), (0x0A, "SetupMenu"),
   (0x0B, "ContentsMenu"), (0x0C, "FavoriteMenu"), (0x0D, "Exit"),
   (0x20, "0"), (0x21, "1"), (0x22, "2"), (0x23, "3"),
   (0x24, "4"), (0x25, "5"), (0x26, "6"), (0x27, "7"), (0x28, "8"),
   (0x29, "9"), (0x2A, "Dot"), (0x2B, "Enter"), (0x2C, "Clear"),
   (0x2F, "NextFavorite"), (0x30, "ChannelUp"), (0x31, "ChannelDown"),
   (0x32, "PreviousChannel"), (0x33, "SoundSelect"), (0x34, "InputSelect"),
   (0x35, "DisplayInformation"), (0x36, "Help"), (0x37, "PageUp"),
   (0x38, "PageDown"), (0x40, "Power"), (0x41, "VolumeUp"),
   (0x42, "VolumeDown"), (0x43, "Mute"), (0x44, "Play"), (0x45, "Stop"),
   (0x46, "Pause"), (0x47, "Record"), (0x48, "Rewind"), (0x49, "FastForward"),
   (0x4A, "Eject"), (0x4B, "Forward"), (0x4C, "Backward"),
   (0x4D, "StopRecord"), (0x4E, "PauseRecord"), (0x50, "Angle"),
   (0x51, "SubPicture"), (0x52, "VideoOnDemand"),
   (0x53, "ElectronicProgramGuide"), (0x54, "TimerProgramming"),
   (0x55, "InitialConfiguration"), (0x60, "PlayFunction"),
   (0x61, "PausePlay"), (0x62, "RecordFunction"),
   (0x63, "PauseRecordFunction"), (0x64, "StopFunction"), (0x65, "Mute"),
   (0x66, "RestoreVolume"), (0x67, "Tune"), (0x68, "SelectMedia"),
   (0x69, "SelectAvInput"), (0x6A, "SelectAudioInput"), (0x6B, "PowerToggle"),
   (0x6C, "PowerOff"), (0x6D, "PowerOn"), (0x71, "Blue"), (0x72, "Red"),
   (0x73, "Green"), (0x74, "Yellow"), (0x75, "F5"), (0x76, "Data"),
   (0x91, "AnReturn"), (0x96, "Max")]

/-- The `for code, value := range keyList` search loop of `GetKeyCodeByName`:
return the code of the first entry whose lowercased name equals the
(already normalised) input, `-1` if none matches.  The entry order is the
map iteration order. -/
def lookupFirst : List (Int × String) → List Char → Int
  | [], _ => -1
  | (code, value) :: rest, n =>
      if lowerL value.data = n then code else lookupFirst rest n

/-- `GetKeyCodeByName` from `cec.go`, with the map iteration order as an
explicit parameter: normalise the input (remove separators, lowercase),
then linearly search the entries. -/
def GetKeyCodeByNameWith (order : List (Int × String)) (name : String) : Int :=
  lookupFirst order (normL name.data)

/-- `GetKeyCodeByName` instantiated with the source-order entry list.  Go
gives no guarantee that a `range` over the map visits entries in this
order; theorems about order-sensitivity quantify over permutations. -/
def GetKeyCodeByName (name : String) : Int :=
  GetKeyCodeByNameWith keyList name

/-- `GetLogicalAddressByName` from `cec.go`: remove separators, strip one
trailing `'1'`, lowercase, then search the 16 logical names in order;
fall back to recognising "unregistered" as 15; otherwise `-1`.
`none` models the Go runtime panic `name[l-1]` commits on an empty
(post-separator-removal) input. -/
def GetLogicalAddressByName (name : String) : Option Int :=
  let n := removeSepsL name.data
  match n.getLast? with
  | none => none
  | some last =>
      let n1 := if last = '1' then n.dropLast else n
      let n2 := lowerL n1
      match logicalNames.findIdx? (fun v => lowerL v.data == n2) with
      | some i => some (Int.ofNat i)
      | none => if n2 = "unregistered".data then some 15 else some (-1)

/-- `GetLogicalNameByAddress` from `cec.go`: `return logicalNames[addr]`.
The function itself performs no bounds check; `none` models the Go runtime
panic on an index outside `[0, 16)`. -/
def GetLogicalNameByAddress (addr : Int) : Option String :=
  if 0 ≤ addr then logicalNames.get? addr.toNat else none

/-- The dynamic type of the `interface{}`-typed `key` argument of `Key`:
a string, an int, or a value of any other type. -/
inductive GoValue where
  | str (s : String)
  | int (n : Int)
  | other
deriving DecidableEq

/-- One step of bus-facing activity performed by `Key`: a key-press call, a
key-release call, or the fixed hold between them (`time.Sleep`, in ms). -/
inductive Action where
  | press (address : Int) (code : Int)
  | sleep (ms : Nat)
  | release (address : Int)
deriving DecidableEq

/-- The observable result of one `Key` call: the sequence of bus-facing
actions it performed, and whether it ended in a Go runtime panic. -/
structure KeyRun where
  trace : List Action
  panicked : Bool
deriving DecidableEq

/-- One hex digit, as `encoding/hex` accepts them (0-9, a-f, A-F). -/
def hexDigit? (c : Char) : Option Nat :=
  if '0' ≤ c ∧ c ≤ '9' then some (c.toNat - 48)
  else if 'a' ≤ c ∧ c ≤ 'f' then some (c.toNat - 87)
  else if 'A' ≤ c ∧ c ≤ 'F' then some (c.toNat - 55)
  else none

/-- `hex.DecodeString` on the two-character suffix `key[2:]`: the decoded
byte, or `none` on a decode error. -/
def hexDecode2 : List Char → Option Nat
  | [c, d] =>
      match hexDigit? c, hexDigit? d with
      | some hc, some hd => some (16 * hc + hd)
      | _, _ => none
  | _ => none

/-- Modelled from the spec: `KeyPress(address, keycode)` and
`KeyRelease(address)` are not under `src/` (they live in the cgo wrapper
around the driver); per the spec they "issue a press and a release event on
the bus to the given logical address" and return the driver's error, if any.
The driver is abstracted as `pressOk` (whether the press call returns nil);
a failing release is only logged by `Key`, so it does not change the
observable trace.  This helper is the press / hold 10 ms / release tail of
`Key` from `cec.go`. -/
def runPressRelease (pressOk : Int → Int → Bool) (address code : Int) : KeyRun :=
  if pressOk address code then
    ⟨[Action.press address code, Action.sleep 10, Action.release address], false⟩
  else
    ⟨[Action.press address code], false⟩

/-- `Key` from `cec.go`, with the driver outcome and the key-table iteration
order as explicit parameters.  Control flow of the source:
* non-string, non-int key: log "Invalid key type", return (empty trace);
* string key: `key[:2]` panics when the string is shorter than 2 (modelled
  by `panicked := true`); a `"0x"`-prefixed 4-character string is hex
  decoded (decode error: log and return with no bus traffic); any other
  string is resolved through `GetKeyCodeByName` (a miss yields `-1`, which
  is passed on to the driver unchecked);
* int key: used as the keycode directly;
then press, hold 10 ms, release. -/
def KeyWith (pressOk : Int → Int → Bool) (order : List (Int × String))
    (address : Int) (key : GoValue) : KeyRun :=
  match key with
  | GoValue.other => ⟨[], false⟩
  | GoValue.int n => runPressRelease pressOk address n
  | GoValue.str s =>
      match s.data with
      | [] => ⟨[], true⟩
      | [_] => ⟨[], true⟩
      | c1 :: c2 :: rest =>
          if c1 = '0' ∧ c2 = 'x' ∧ rest.length = 2 then
            match hexDecode2 rest with
            | none => ⟨[], false⟩
            | some b => runPressRelease pressOk address (Int.ofNat b)
          else
            runPressRelease pressOk address (GetKeyCodeByNameWith order s)

/-- `opcodes` from `cec.go`.  In Go this is a map read with a plain index
(deterministic, defaulting to the empty string), embedded as an
association-list lookup; entries in source order (keys are unique, so the
order is immaterial for reads). -/
def opcodes : List (Int × String) :=
  [(0x82, "ACTIVE_SOURCE"), (0x04, "IMAGE_VIEW_ON"), (0x0D, "TEXT_VIEW_ON"),
   (0x9D, "INACTIVE_SOURCE"), (0x85, "REQUEST_ACTIVE_SOURCE"),
   (0x80, "ROUTING_CHANGE"), (0x81, "ROUTING_INFORMATION"),
   (0x86, "SET_STREAM_PATH"), (0x36, "STANDBY"), (0x0B, "RECORD_OFF"),
   (0x09, "RECORD_ON"), (0x0A, "RECORD_STATUS"), (0x0F, "RECORD_TV_SCREEN"),
   (0x33, "CLEAR_ANALOGUE_TIMER"), (0x99, "CLEAR_DIGITAL_TIMER"),
   (0xA1, "CLEAR_EXTERNAL_TIMER"), (0x34, "SET_ANALOGUE_TIMER"),
   (0x97, "SET_DIGITAL_TIMER"), (0xA2, "SET_EXTERNAL_TIMER"),
   (0x67, "SET_TIMER_PROGRAM_TITLE"), (0x43, "TIMER_CLEARED_STATUS"),
   (0x35, "TIMER_STATUS"), (0x9E, "CEC_VERSION"), (0x9F, "GET_CEC_VERSION"),
   (0x83, "GIVE_PHYSICAL_ADDRESS"), (0x91, "GET_MENU_LANGUAGE"),
   (0x84, "REPORT_PHYSICAL_ADDRESS"), (0x32, "SET_MENU_LANGUAGE"),
   (0x42, "DECK_CONTROL"), (0x1B, "DECK_STATUS"), (0x1A, "GIVE_DECK_STATUS"),
   (0x41, "PLAY"), (0x08, "GIVE_TUNER_DEVICE_STATUS"),
   (0x92, "SELECT_ANALOGUE_SERVICE"), (0x93, "SELECT_DIGITAL_SERVICE"),
   (0x07, "TUNER_DEVICE_STATUS"), (0x06, "TUNER_STEP_DECREMENT"),
   (0x05, "TUNER_STEP_INCREMENT"), (0x87, "DEVICE_VENDOR_ID"),
   (0x8C, "GIVE_DEVICE_VENDOR_ID"), (0x89, "VENDOR_COMMAND"),
   (0xA0, "VENDOR_COMMAND_WITH_ID"), (0x8A, "VENDOR_REMOTE_BUTTON_DOWN"),
   (0x8B, "VENDOR_REMOTE_BUTTON_UP"), (0x64, "SET_OSD_STRING"),
   (0x46, "GIVE_OSD_NAME"), (0x47, "SET_OSD_NAME"), (0x8D, "MENU_REQUEST"),
   (0x8E, "MENU_STATUS"), (0x44, "USER_CONTROL_PRESSED"),
   (0x45, "USER_CONTROL_RELEASE"), (0x8F, "GIVE_DEVICE_POWER_STATUS"),
   (0x90, "REPORT_POWER_STATUS"), (0x00, "FEATURE_ABORT"), (0xFF, "ABORT"),
   (0x71, "GIVE_AUDIO_STATUS"), (0x7D, "GIVE_SYSTEM_AUDIO_MODE_STATUS"),
   (0x7A, "REPORT_AUDIO_STATUS"), (0x72, "SET_SYSTEM_AUDIO_MODE"),
   (0x70, "SYSTEM_AUDIO_MODE_REQUEST"), (0x7E, "SYSTEM_AUDIO_MODE_STATUS"),
   (0x9A, "SET_AUDIO_RATE"), (0xC0, "START_ARC"),
   (0xC1, "REPORT_ARC_STARTED"), (0xC2, "REPORT_ARC_ENDED"),
   (0xC3, "REQUEST_ARC_START"), (0xC4, "REQUEST_ARC_END"), (0xC5, "END_ARC"),
   (0xF8, "CDC"), (0xFD, "NONE")]

/-- The Go map read `opcodes[op]`: the name, or the empty string when the
opcode is absent. -/
def opcodeName (op : Int) : String := (opcodes.lookup op).getD ""

/-- The raw `cec_command` frame handed to the `commandReceived` callback by
the driver (`callbacks.go`): initiator, destination, ack, eom, opcode,
opcode_set, transmit timeout and the parameter byte sequence. -/
structure CecFrame where
  initiator : Nat
  destination : Nat
  ack : Int
  eom : Int
  opcode : Int
  opcode_set : Int
  transmit_timeout : Int
  parameters : List Nat
deriving DecidableEq

/-- The `Command` structure from `cec.go`. -/
structure Command where
  initiator : Nat
  destination : Nat
  ack : Int
  eom : Int
  opcode : Int
  parameters : List Nat
  opcode_set : Int
  transmit_timeout : Int
  Operation : String
deriving DecidableEq

/-- The `commandReceived` callback from `callbacks.go`: the `Command`
constructed from the raw frame.  The source copies every field except
`parameters`, which is left at its zero value (`nil`, here `[]`) behind the
comment `// parameters: todo`; `Operation` is the opcode-table read.  The
`Connection.commandReceived` method in `cec.go` then enqueues this value
unchanged, so the constructed value is also the delivered one. -/
def commandReceived (msg : CecFrame) : Command :=
  ⟨msg.initiator, msg.destination, msg.ack, msg.eom, msg.opcode,
   [], msg.opcode_set, msg.transmit_timeout, opcodeName msg.opcode⟩

/-- The lowercase ASCII letters, the possible outputs of `goToLowerChar`
other than the input itself. -/
def lowercaseLetters : List Char :=
  ['a', 'b', 'c', 'd', 'e', 'f', 'g', 'h', 'i', 'j', 'k', 'l', 'm',
   'n', 'o', 'p', 'q', 'r', 's', 't', 'u', 'v', 'w', 'x', 'y', 'z']

/-- `VariantOf v w`: `v` differs from `w` only by the letter case of its
characters and by inserted separator characters. -/
inductive VariantOf : List Char → List Char → Prop where
  | nil : VariantOf [] []
  | sep {c : Char} {v w : List Char} :
      c ∈ separators → VariantOf v w → VariantOf (c :: v) w
  | chr {c d : Char} {v w : List Char} :
      goToLowerChar c = goToLowerChar d → VariantOf v w →
      VariantOf (c :: v) (d :: w)

/-- An admissible iteration order of the `keyList` map in which the
`(0x65, "Mute")` entry is visited first. -/
def muteFront : List (Int × String) :=
  (0x65, "Mute") :: keyList.erase (0x65, "Mute")

/-- A sample raw frame as the driver would hand it to `commandReceived`:
an ACTIVE_SOURCE message with a two-byte physical-address parameter. -/
def c3Frame : CecFrame := ⟨4, 0, 1, 1, 0x82, 1, 1000, [0x10, 0x00]⟩

/-! ## Helper lemmas -/

theorem goToLowerChar_cases (c : Char) :
    goToLowerChar c = c ∨ goToLowerChar c ∈ lowercaseLetters := by
  unfold goToLowerChar
  split
  all_goals first
    | exact Or.inr (by decide)
    | exact Or.inl rfl

theorem sep_goToLowerChar : ∀ c ∈ separators, goToLowerChar c = c := by decide

theorem lowercase_not_sep : ∀ x ∈ lowercaseLetters, x ∉ separators := by decide

theorem mem_seps_of_lower {d : Char} (h : goToLowerChar d ∈ separators) :
    d ∈ separators := by
  rcases goToLowerChar_cases d with he | hl
  · rwa [he] at h
  · exact absurd h (lowercase_not_sep _ hl)

theorem removeSepsL_cons (c : Char) (l : List Char) :
    removeSepsL (c :: l) =
      if c ∈ separators then removeSepsL l else c :: removeSepsL l := by
  by_cases h : c ∈ separators <;> simp [removeSepsL, List.filter_cons, h]

theorem normL_cons_sep {c : Char} (l : List Char) (h : c ∈ separators) :
    normL (c :: l) = normL l := by
  simp [normL, removeSepsL_cons, h]

theorem normL_cons {c : Char} (l : List Char) (h : c ∉ separators) :
    normL (c :: l) = goToLowerChar c :: normL l := by
  simp [normL, removeSepsL_cons, h, lowerL]

/-- A variant normalises (separator removal, then lowercasing) to the same
character list as the original. -/
theorem variant_normL {v w : List Char} (h : VariantOf v w) :
    normL v = normL w := by
  induction h with
  | nil => rfl
  | sep hc _ ih =>
      rw [normL_cons_sep _ hc]
      exact ih
  | chr hcd _ ih =>
      rename_i c d v' w' _
      by_cases hc : c ∈ separators <;> by_cases hd : d ∈ separators
      · rw [normL_cons_sep _ hc, normL_cons_sep _ hd]
        exact ih
      · exact absurd (mem_seps_of_lower (d := d)
          (by rw [hcd.symm.trans (sep_goToLowerChar c hc)]; exact hc)) hd
      · exact absurd (mem_seps_of_lower (d := c)
          (by rw [hcd.trans (sep_goToLowerChar d hd)]; exact hd)) hc
      · rw [normL_cons _ hc, normL_cons _ hd, hcd, ih]

/-- When some entry of `order` matches the (normalised) name, the linear
search returns the code of a matching entry of `order` (the first one). -/
theorem lookupFirst_exists_mem {n : List Char} :
    ∀ {order : List (Int × String)},
      (∃ cv ∈ order, lowerL cv.2.data = n) →
      ∃ cv ∈ order, lowerL cv.2.data = n ∧ lookupFirst order n = cv.1
  | [], h => absurd h (by simp)
  | (code, value) :: rest, h => by
      by_cases hm : lowerL value.data = n
      · exact ⟨(code, value), List.mem_cons_self _ _, hm,
          by simp [lookupFirst, hm]⟩
      · obtain ⟨cv, hmem, hcv⟩ := h
        rcases List.mem_cons.mp hmem with heq | htail
        · rw [heq] at hcv
          exact absurd hcv hm
        · obtain ⟨cv', hmem', hcv', hres⟩ :=
            lookupFirst_exists_mem ⟨cv, htail, hcv⟩
          exact ⟨cv', List.mem_cons_of_mem _ hmem', hcv',
            by simp [lookupFirst, hm, hres]⟩

/-! ## Claim theorems -/

/-- Claim C1, counterexample: a symbolic key name with no entry in the
key-code table is an invalid key specification, yet `Key` is not abandoned
for it — `GetKeyCodeByName` yields the sentinel `-1`, `Key` never checks it,
and a KeyPress with code `-1` (followed by a KeyRelease) is issued to the
driver.  This refutes "no KeyPress and no KeyRelease is sent" for the
unknown-name case. -/
theorem c1_unknown_name_counterexample :
    GetKeyCodeByNameWith keyList "NoSuchKey" = -1 ∧
    (KeyWith (fun _ _ => true) keyList 1 (GoValue.str "NoSuchKey")).trace =
      [Action.press 1 (-1), Action.sleep 10, Action.release 1] := by
  decide

/-- Claim C1, amended: `Key` is logged-and-abandoned with no bus traffic
exactly for a key of a type other than string or int, and for a
4-character `0x`-prefixed string whose two hex digits fail to decode; a
symbolic name with no table entry instead resolves to `-1` and a KeyPress
with code `-1` is issued (with the KeyRelease following when the press
succeeds). -/
theorem c1_abandoned_cases (pressOk : Int → Int → Bool)
    (order : List (Int × String)) (a : Int) :
    (KeyWith pressOk order a GoValue.other = ⟨[], false⟩) ∧
    (∀ (s : String) (c3 c4 : Char), s.data = ['0', 'x', c3, c4] →
       hexDecode2 [c3, c4] = none →
       KeyWith pressOk order a (GoValue.str s) = ⟨[], false⟩) ∧
    (∀ (s : String) (c1 c2 : Char) (rest : List Char),
       s.data = c1 :: c2 :: rest →
       ¬(c1 = '0' ∧ c2 = 'x' ∧ rest.length = 2) →
       GetKeyCodeByNameWith order s = -1 →
       (KeyWith pressOk order a (GoValue.str s)).trace =
         if pressOk a (-1) then
           [Action.press a (-1), Action.sleep 10, Action.release a]
         else [Action.press a (-1)]) := by
  refine ⟨rfl, ?_, ?_⟩
  · intro s c3 c4 hs hhex
    obtain ⟨l⟩ := s
    replace hs : l = ['0', 'x', c3, c4] := hs
    subst hs
    have hred : KeyWith pressOk order a (GoValue.str ⟨['0', 'x', c3, c4]⟩) =
        match hexDecode2 [c3, c4] with
        | none => ⟨[], false⟩
        | some b => runPressRelease pressOk a (Int.ofNat b) := rfl
    rw [hred, hhex]
  · intro s c1 c2 rest hs hcond hcode
    obtain ⟨l⟩ := s
    replace hs : l = c1 :: c2 :: rest := hs
    subst hs
    have hred : KeyWith pressOk order a (GoValue.str ⟨c1 :: c2 :: rest⟩) =
        if c1 = '0' ∧ c2 = 'x' ∧ rest.length = 2 then
          match hexDecode2 rest with
          | none => ⟨[], false⟩
          | some b => runPressRelease pressOk a (Int.ofNat b)
        else
          runPressRelease pressOk a
            (GetKeyCodeByNameWith order ⟨c1 :: c2 :: rest⟩) := rfl
    rw [hred, if_neg hcond, hcode]
    by_cases hp : pressOk a (-1) <;> simp [runPressRelease, hp]

/-- Claim C1, witness: the amended theorem at concrete inputs — a non-string
non-int key and the undecodable "0xzz" leave an empty trace, while the
unknown name "Nope" produces press(-1) / sleep / release. -/
theorem c1_abandoned_cases_witness :
    KeyWith (fun _ _ => true) keyList 1 GoValue.other = ⟨[], false⟩ ∧
    KeyWith (fun _ _ => true) keyList 1 (GoValue.str "0xzz") = ⟨[], false⟩ ∧
    (KeyWith (fun _ _ => true) keyList 1 (GoValue.str "Nope")).trace =
      [Action.press 1 (-1), Action.sleep 10, Action.release 1] := by
  refine ⟨(c1_abandoned_cases (fun _ _ => true) keyList 1).1,
    (c1_abandoned_cases (fun _ _ => true) keyList 1).2.1 "0xzz" 'z' 'z'
      rfl rfl, ?_⟩
  rw [(c1_abandoned_cases (fun _ _ => true) keyList 1).2.2 "Nope" 'N' 'o'
    ['p', 'e'] rfl (by decide) (by decide)]
  decide

/-- Claim C2, counterexample: the `range` loop of `GetKeyCodeByName` visits
the Go map in an unspecified order; under the source-text order the lookup
of "Mute" returns 0x43, under the equally admissible order that visits the
`(0x65, "Mute")` entry first it returns 0x65 — two invocations on the same
input need not yield equal results. -/
theorem c2_mute_counterexample :
    List.Perm muteFront keyList ∧
    GetKeyCodeByNameWith keyList "Mute" = 0x43 ∧
    GetKeyCodeByNameWith muteFront "Mute" = 0x65 := by
  refine ⟨?_, by decide, by decide⟩
  have hm : ((0x65 : Int), "Mute") ∈ keyList := by decide
  exact (List.perm_cons_erase hm).symm

/-- Claim C2, amended: under every admissible iteration order (permutation
of the key table) `GetKeyCodeByName "Mute"` returns one of the two "Mute"
codes, 0x43 or 0x65; which of the two is returned depends on the iteration
order, which Go randomises, so it is not stable across calls. -/
theorem c2_mute_amended (order : List (Int × String))
    (h : List.Perm order keyList) :
    GetKeyCodeByNameWith order "Mute" = 0x43 ∨
    GetKeyCodeByNameWith order "Mute" = 0x65 := by
  have hex : ∃ cv ∈ order, lowerL cv.2.data = normL "Mute".data :=
    ⟨(0x43, "Mute"), h.mem_iff.mpr (by decide), by decide⟩
  obtain ⟨cv, hmem, hcv, hres⟩ := lookupFirst_exists_mem hex
  have hmute : ∀ cv ∈ keyList,
      lowerL cv.2.data = normL "Mute".data → cv.1 = 0x43 ∨ cv.1 = 0x65 := by
    decide
  rw [GetKeyCodeByNameWith, hres]
  exact hmute cv (h.mem_iff.mp hmem) hcv

/-- Claim C2, witness: the amended theorem at the source-text order. -/
theorem c2_mute_amended_witness :
    GetKeyCodeByNameWith keyList "Mute" = 0x43 ∨
    GetKeyCodeByNameWith keyList "Mute" = 0x65 :=
  c2_mute_amended keyList (List.Perm.refl _)

/-- Claim C3 (code bug): the `commandReceived` callback copies initiator,
destination, ack, eom, opcode, opcode_set, transmit timeout and derives the
operation name, but leaves `parameters` at its zero value (`// parameters:
todo` in `callbacks.go`), so the delivered `Command` does not carry the
frame's parameter byte sequence.  Evaluated at a frame carrying parameters
`[0x10, 0x00]`. -/
theorem c3_parameters_not_carried :
    c3Frame.parameters = [0x10, 0x00] ∧
    (commandReceived c3Frame).parameters = [] ∧
    commandReceived c3Frame =
      ⟨4, 0, 1, 1, 0x82, [], 1, 1000, "ACTIVE_SOURCE"⟩ := by
  decide

/-- Claim C4, counterexample: `GetLogicalAddressByName` does not reject the
empty string (or an input that is empty once separators are removed); it
reaches the out-of-bounds access `name[l-1]` with `l = 0`, modelled by the
`none` (panic) outcome instead of a normal return. -/
theorem c4_empty_counterexample :
    GetLogicalAddressByName "" = none ∧
    GetLogicalAddressByName ":-_" = none ∧
    removeSeparators ":-_" = "" := by
  decide

/-- Claim C4, amended: for every input that is empty after separator
removal, `GetLogicalAddressByName` hits the out-of-bounds last-character
access (the panic outcome `none`); there is no explicit guard. -/
theorem c4_empty_input_panics (s : String) (h : removeSepsL s.data = []) :
    GetLogicalAddressByName s = none := by
  simp [GetLogicalAddressByName, h]

/-- Claim C4, witness: the amended theorem at an input made of separators
only. -/
theorem c4_empty_input_panics_witness : GetLogicalAddressByName ":- _" = none :=
  c4_empty_input_panics ":- _" (by decide)

/-- Claim C5, counterexample: `GetLogicalNameByAddress` performs the
unchecked index `logicalNames[addr]`; outside `[0, 15]` this is the
out-of-bounds panic (`none`), not an InvalidAddress error value — the
function's Go signature has no error channel at all. -/
theorem c5_oob_counterexample :
    GetLogicalNameByAddress 16 = none ∧ GetLogicalNameByAddress (-1) = none := by
  decide

/-- Claim C5, amended: for every address outside `[0, 15]` the function
commits the out-of-bounds read of the 16-entry table (the panic outcome
`none`) rather than failing with an error value; for every address in
`[0, 15]` it returns that slot's positional name. -/
theorem c5_oob_panics :
    (∀ a : Int, a < 0 ∨ 15 < a → GetLogicalNameByAddress a = none) ∧
    (∀ i : Fin 16,
       GetLogicalNameByAddress (i.val : Int) =
         some (logicalNames.getD i.val "")) := by
  constructor
  · intro a ha
    unfold GetLogicalNameByAddress
    rcases ha with h | h
    · rw [if_neg (by omega)]
    · rw [if_pos (by omega)]
      apply List.get?_eq_none.mpr
      have hlen : logicalNames.length = 16 := by decide
      omega
  · decide

/-- Claim C5, witness: the amended theorem at the out-of-range address 16
and the in-range address 0. -/
theorem c5_oob_panics_witness :
    GetLogicalNameByAddress 16 = none ∧
    GetLogicalNameByAddress 0 = some "TV" :=
  ⟨c5_oob_panics.1 16 (Or.inr (by decide)), c5_oob_panics.2 0⟩

/-- Claim C6 (confirmed): for every logical address `a` in `[0, 15]`,
resolving the positional name back through the name resolver is the
identity: `GetLogicalAddressByName (GetLogicalNameByAddress a) = a`, with
both calls returning normally. -/
theorem c6_logical_roundtrip :
    ∀ i : Fin 16,
      (GetLogicalNameByAddress (i.val : Int)).bind GetLogicalAddressByName =
        some (i.val : Int) := by
  decide

/-- Claim C7 (confirmed): `Key(a, "0x41")` decodes the hex code 65 = 0x41
and, when the driver accepts the press, performs exactly
KeyPress(a, 0x41), a 10 ms hold (`time.Sleep(10 * time.Millisecond)`, so
the press and release are at least 10 ms apart), then exactly one
KeyRelease(a); when the press fails no KeyRelease is ever issued, so a
KeyRelease never occurs without a preceding successful KeyPress. -/
theorem c7_hex_key_press_release (pressOk : Int → Int → Bool)
    (order : List (Int × String)) (a : Int) :
    (pressOk a 65 = true →
       (KeyWith pressOk order a (GoValue.str "0x41")).trace =
         [Action.press a 65, Action.sleep 10, Action.release a]) ∧
    (pressOk a 65 = false →
       (KeyWith pressOk order a (GoValue.str "0x41")).trace =
         [Action.press a 65]) := by
  have hred : KeyWith pressOk order a (GoValue.str "0x41") =
      runPressRelease pressOk a 65 := rfl
  constructor <;> intro h <;> rw [hred] <;> simp [runPressRelease, h]

/-- Claim C7, witness: the theorem with an always-accepting driver at
address 5. -/
theorem c7_hex_key_press_release_witness :
    (KeyWith (fun _ _ => true) keyList 5 (GoValue.str "0x41")).trace =
      [Action.press 5 65, Action.sleep 10, Action.release 5] :=
  (c7_hex_key_press_release (fun _ _ => true) keyList 5).1 rfl

/-- Claim C8 (confirmed): for every key name in the table and every variant
of it that differs only by letter case and inserted separator characters,
`GetKeyCodeByName` returns the same code for the variant as for the
canonical name, under every iteration order of the key table. -/
theorem c8_case_separator_insensitive (order : List (Int × String))
    (code : Int) (name : String) (_hmem : (code, name) ∈ keyList)
    (variant : String) (hv : VariantOf variant.data name.data) :
    GetKeyCodeByNameWith order variant = GetKeyCodeByNameWith order name := by
  unfold GetKeyCodeByNameWith
  rw [variant_normL hv]

/-- Claim C8, witness: "volume-up" is a case/separator variant of
"VolumeUp" and resolves to the same code, 0x41. -/
theorem c8_case_separator_insensitive_witness :
    GetKeyCodeByNameWith keyList "volume-up" =
      GetKeyCodeByNameWith keyList "VolumeUp" ∧
    GetKeyCodeByNameWith keyList "VolumeUp" = 0x41 := by
  have hv : VariantOf
      ['v', 'o', 'l', 'u', 'm', 'e', '-', 'u', 'p']
      ['V', 'o', 'l', 'u', 'm', 'e', 'U', 'p'] :=
    .chr (by decide) (.chr (by decide) (.chr (by decide) (.chr (by decide)
      (.chr (by decide) (.chr (by decide) (.sep (by decide)
        (.chr (by decide) (.chr (by decide) .nil))))))))
  exact ⟨c8_case_separator_insensitive keyList 0x41 "VolumeUp" (by decide)
    "volume-up" hv, by decide⟩

/-- Claim C9 (confirmed): for every string key of length 0 or 1, the slice
`key[:2]` in `Key` is out of range — the call panics at the public
interface before any key resolution or bus traffic (empty trace). -/
theorem c9_short_key_string_panics (pressOk : Int → Int → Bool)
    (order : List (Int × String)) (a : Int) (s : String)
    (h : s.length ≤ 1) :
    KeyWith pressOk order a (GoValue.str s) = ⟨[], true⟩ := by
  obtain ⟨l⟩ := s
  rcases l with _ | ⟨c1, _ | ⟨c2, rest⟩⟩
  · rfl
  · rfl
  · exfalso
    simp [String.length] at h

/-- Claim C9, witness: the theorem at the empty string. -/
theorem c9_short_key_string_panics_witness :
    KeyWith (fun _ _ => true) keyList 3 (GoValue.str "") = ⟨[], true⟩ :=
  c9_short_key_string_panics (fun _ _ => true) keyList 3 "" (by decide)

/-- Claim C10 (confirmed): the trailing-'1' stripping of
`GetLogicalAddressByName` applies to every input: appending "1" to any of
the 16 canonical logical names resolves to the same address as the name
itself, and no input ending in '1' can resolve by table match to a name
that itself ends in '1' (no table name does). -/
theorem c10_trailing_one_universal :
    (∀ i : Fin 16,
       GetLogicalAddressByName (logicalNames.getD i.val "" ++ "1") =
         GetLogicalAddressByName (logicalNames.getD i.val "")) ∧
    (∀ (s : String) (j : Fin 16), s.data.getLast? = some '1' →
       GetLogicalAddressByName s = some (j.val : Int) →
       (logicalNames.getD j.val "").data.getLast? ≠ some '1') := by
  refine ⟨by decide, ?_⟩
  have h : ∀ j : Fin 16,
      (logicalNames.getD j.val "").data.getLast? ≠ some '1' := by decide
  exact fun s j _ _ => h j

/-- Claim C10, witness: "TV1" resolves like "TV", and the entry "Tuner1"
resolves to address 3 whose name "Tuner" does not end in '1'. -/
theorem c10_trailing_one_universal_witness :
    GetLogicalAddressByName (logicalNames.getD 0 "" ++ "1") =
      GetLogicalAddressByName (logicalNames.getD 0 "") ∧
    (logicalNames.getD 3 "").data.getLast? ≠ some '1' :=
  ⟨c10_trailing_one_universal.1 0,
   c10_trailing_one_universal.2 "Tuner1" 3 (by decide) (by decide)⟩

end Cec
